import Mathlib

/-!
Shallow embedding of the log-normalization and pattern-digest pipeline of the
Logging-Analyzer-Tool repository.

The embedding follows the TypeScript/JavaScript source:
* `processLogs`, `calculateStats` — `src/lambda/index.mjs` (logProcessor part);
* `detectLogFormat`, the per-format row parsers, `normalizeLevel`,
  `parseLogRow`, `convertWindowsLog` — `src/utils/logParsers.ts`;
* the `complete`-callback body of `parseCSV` — `src/utils/csvParser.ts`.

JavaScript idioms are modelled explicitly:
* a parsed CSV row (a JS object) is an association list `Row`;
* `a || b` on strings is `jsOr` (empty string is falsy);
* `String.prototype.match` against an unanchored alternation regex is
  `jsMatchAny` (true iff some alternative occurs as a substring);
* `parseInt` is `parseIntJS` (leading whitespace, optional sign, leading
  decimal digits, `NaN` — modelled as `none` — when no digit is found);
* a JS object keyed by cluster fingerprints (which always contain a `-`, so
  never an array index) preserves insertion order; it is modelled as an
  association list extended at the tail.
-/

/-- A parsed CSV row: JS object as association list from column name to value. -/
abbrev Row : Type := List (String × String)

/-- `row[k]` followed by JS `String(x || '')`: the value at key `k`, or `""`. -/
def rowLookup (row : Row) (k : String) : String :=
  match row.find? (fun kv => kv.1 == k) with
  | some kv => kv.2
  | none => ""

/-- JS `a || b` on strings: the empty string is falsy. -/
def jsOr (a b : String) : String :=
  if a == "" then b else a

/-- JS `s.toLowerCase()` (ASCII case folding), written over the character
list so that concrete instances reduce in the kernel. -/
def toLowerStr (s : String) : String :=
  ⟨s.data.map Char.toLower⟩

/-- JS `s.trim()`: strip whitespace from both ends, written over the
character list so that concrete instances reduce in the kernel. -/
def trimStr (s : String) : String :=
  ⟨((s.data.dropWhile Char.isWhitespace).reverse.dropWhile Char.isWhitespace).reverse⟩

/-- One alternative of an unanchored JS regex: occurrence as a substring. -/
def containsSubstr (s pat : String) : Bool :=
  s.toList.tails.any (fun t => List.isPrefixOf pat.toList t)

/-- JS `s.match(/p1|p2|.../)` truthiness: some alternative occurs in `s`. -/
def jsMatchAny (s : String) (pats : List String) : Bool :=
  pats.any (fun p => containsSubstr s p)

/-- Value of a list of decimal digit characters. -/
def digitsToNat (l : List Char) : Nat :=
  l.foldl (fun n c => n * 10 + (c.toNat - 48)) 0

/-- JS `parseInt(s)` in base 10: skip leading whitespace, optional sign,
read leading decimal digits; `NaN` (no digits) is `none`. -/
def parseIntJS (s : String) : Option Int :=
  let cs := s.toList.dropWhile (fun c => c.isWhitespace)
  match cs with
  | '-' :: rest =>
    let ds := rest.takeWhile (fun c => c.isDigit)
    if ds.isEmpty then none else some (-(digitsToNat ds : Int))
  | '+' :: rest =>
    let ds := rest.takeWhile (fun c => c.isDigit)
    if ds.isEmpty then none else some ((digitsToNat ds : Int))
  | _ =>
    let ds := cs.takeWhile (fun c => c.isDigit)
    if ds.isEmpty then none else some ((digitsToNat ds : Int))

/-- Unified log entry (`LogEntry` in `src/types/logs.ts`); the optional JS
fields default to the empty string. -/
structure LogEntry where
  timestamp : String
  component : String
  level : String
  content : String
  source : String := ""
  hostname : String := ""
  pid : String := ""
deriving DecidableEq, Repr

/-- Legacy Windows row shape (`WindowsLog` in `src/types/logs.ts`). -/
structure WindowsLog where
  LineId : String
  Time : String
  Component : String
  Level : String
  Content : String
deriving DecidableEq, Repr

/-- One digest entry (`LogDigest` in `src/types/logs.ts`). -/
structure LogDigest where
  component : String
  level : String
  frequency : Nat
  sampleContent : String
  fingerprint : String
deriving DecidableEq, Repr

/-- The supported log formats (`LogFormat` in `src/types/logs.ts`). -/
inductive LogFormat where
  | windows
  | linuxSyslog
  | apache
  | hadoop
  | spark
  | openssh
  | openstack
  | thunderbird
  | auto
deriving DecidableEq, Repr

/-- The cluster key `` `${log.component}-${log.level}` `` of `processLogs`. -/
def fingerprint (log : LogEntry) : String :=
  log.component ++ "-" ++ log.level

/-- The accumulator value of the `reduce` in `processLogs`. -/
structure Cluster where
  component : String
  level : String
  count : Nat
  sample : String
  fingerprint : String
deriving DecidableEq, Repr

/-- The `acc[key].count++` step of the `reduce` in `processLogs`, applied to
one binding of the clusters object. -/
def updAt (key : String) (kv : String × Cluster) : String × Cluster :=
  if kv.1 == key then (kv.1, { kv.2 with count := kv.2.count + 1 }) else kv

/-- One step of the `reduce` in `processLogs`: on an unseen key append a fresh
cluster with count 0, then increment the cluster at the key. -/
def insertLog (acc : List (String × Cluster)) (log : LogEntry) :
    List (String × Cluster) :=
  let key := fingerprint log
  let acc' :=
    if (acc.find? (fun kv => kv.1 == key)).isSome then acc
    else acc ++ [(key,
      { component := log.component, level := log.level, count := 0,
        sample := log.content, fingerprint := key })]
  acc'.map (updAt key)

/-- Step 1 of `processLogs`: the clusters object, as an insertion-ordered
association list. -/
def buildClusters (logs : List LogEntry) : List (String × Cluster) :=
  logs.foldl insertLog []

/-- The `levelPriority` table of `processLogs`, with JS `|| 0` for a missing
key. -/
def levelPriority (level : String) : Nat :=
  if level == "Error" then 3
  else if level == "Warning" then 2
  else if level == "Info" then 1
  else 0

/-- The sort comparator of `processLogs` as a `Bool` order: `a` may precede
`b` iff the JS comparator returns `≤ 0` on `(a, b)` — count descending, then
level priority descending. -/
def clusterLE (a b : Cluster) : Bool :=
  if a.count == b.count then levelPriority b.level ≤ levelPriority a.level
  else b.count < a.count

/-- The comparator as a relation, for the stable sort. -/
def ClusterOrd (a b : Cluster) : Prop := clusterLE a b = true

instance : DecidableRel ClusterOrd := fun a b => Bool.decEq (clusterLE a b) true

/-- `processLogs` of `src/utils/logProcessor.ts` on unified entries: cluster
by fingerprint, sort by frequency then level priority (JS `Array.sort` is
stable and the comparator is consistent, so the result is the unique stable
sort, modelled by `insertionSort`), keep the top 100. -/
def processLogs (logs : List LogEntry) : List LogDigest :=
  let patterns := List.insertionSort ClusterOrd ((buildClusters logs).map (fun kv => kv.2))
  (patterns.take 100).map (fun p =>
    { component := p.component, level := p.level, frequency := p.count,
      sampleContent := p.sample, fingerprint := p.fingerprint })

/-- The single-key `getValue` helper of `parseWindowsLog`: find a header
matching the key case-insensitively, then look it up in the row (JS
`row[header || key]`, so an empty or missing header falls back to the raw
key). -/
def getValue1 (row : Row) (headers : List String) (key : String) : String :=
  let header := headers.find? (fun h => toLowerStr h == toLowerStr key)
  rowLookup row (jsOr (header.getD "") key)

/-- The two-alias `getValue` helper shared by the other parsers; a JS call
omitting `alt` is modelled by passing `""`. -/
def getValue2 (row : Row) (headers : List String) (key alt : String) : String :=
  let header := headers.find?
    (fun h => toLowerStr h == toLowerStr key || toLowerStr h == toLowerStr alt)
  rowLookup row (jsOr (header.getD "") key)

/-- `normalizeLevel` of `src/utils/logParsers.ts`. -/
def normalizeLevel (level : String) : String :=
  let levelLower := trimStr (toLowerStr level)
  if jsMatchAny levelLower ["error", "err", "critical", "crit", "fatal", "emergency", "emerg"] then "Error"
  else if jsMatchAny levelLower ["warn", "warning"] then "Warning"
  else if jsMatchAny levelLower ["info", "information", "notice"] then "Info"
  else if jsMatchAny levelLower ["debug", "trace", "verbose"] then "Debug"
  else if levelLower == "0" || levelLower == "1" || levelLower == "2" then "Error"
  else if levelLower == "3" || levelLower == "4" then "Warning"
  else if levelLower == "5" || levelLower == "6" then "Info"
  else if levelLower == "7" then "Debug"
  else jsOr level "Info"

/-- The level normalizer as described by the specification (§4.1), amended
on the empty string: case-fold and trim; try the textual pattern groups in
fixed priority order (a match of an unanchored regex alternation is the
occurrence of some alternative as a substring); failing that, map the
numeric syslog codes; failing that, return the original input unchanged —
except that the empty input (falsy in JS) yields "Info". -/
def normalizeLevelSpec (level : String) : String :=
  let t := trimStr (toLowerStr level)
  if jsMatchAny t ["error", "err", "critical", "crit", "fatal", "emergency", "emerg"] then "Error"
  else if jsMatchAny t ["warn", "warning"] then "Warning"
  else if jsMatchAny t ["info", "information", "notice"] then "Info"
  else if jsMatchAny t ["debug", "trace", "verbose"] then "Debug"
  else if t = "0" ∨ t = "1" ∨ t = "2" then "Error"
  else if t = "3" ∨ t = "4" then "Warning"
  else if t = "5" ∨ t = "6" then "Info"
  else if t = "7" then "Debug"
  else if level = "" then "Info"
  else level

/-- `detectLogFormat` of `src/utils/logParsers.ts`. -/
def detectLogFormat (headers : List String) (sampleRows : List Row) : LogFormat :=
  let headerLower := headers.map (fun h => toLowerStr h)
  if headerLower.contains "lineid" && headerLower.contains "component"
      && headerLower.contains "level" then
    LogFormat.windows
  else if headerLower.contains "timestamp"
      && (headerLower.contains "hostname" || headerLower.contains "host") then
    LogFormat.linuxSyslog
  else if headerLower.contains "remotehost" || headerLower.contains "request"
      || headerLower.contains "status" then
    LogFormat.apache
  else if headerLower.contains "logtime"
      && (headerLower.contains "level" || headerLower.contains "priority") then
    LogFormat.hadoop
  else if headerLower.contains "timestamp" && headerLower.contains "logger" then
    LogFormat.spark
  else if sampleRows.any (fun row =>
      let content := toLowerStr (rowLookup row (jsOr (headers.headD "") ""))
      containsSubstr content "sshd" || containsSubstr content "connection"
        || containsSubstr content "authentication") then
    LogFormat.openssh
  else
    LogFormat.auto

/-- `parseWindowsLog` of `src/utils/logParsers.ts`. -/
def parseWindowsLog (row : Row) (headers : List String) : LogEntry :=
  { timestamp := getValue1 row headers "Time"
    component := getValue1 row headers "Component"
    level := getValue1 row headers "Level"
    content := getValue1 row headers "Content"
    source := "Windows" }

/-- `parseLinuxSyslog` of `src/utils/logParsers.ts`. -/
def parseLinuxSyslog (row : Row) (headers : List String) : LogEntry :=
  let timestamp := getValue2 row headers "timestamp" "date" ++ " "
    ++ getValue2 row headers "time" ""
  let component := jsOr
    (jsOr (getValue2 row headers "program" "service")
      (getValue2 row headers "component" "daemon"))
    (getValue2 row headers "logger" "")
  let level := jsOr
    (jsOr (getValue2 row headers "level" "priority")
      (getValue2 row headers "severity" ""))
    "Info"
  let content := jsOr (getValue2 row headers "message" "msg")
    (getValue2 row headers "content" "")
  { timestamp := trimStr timestamp
    component := jsOr component "unknown"
    level := normalizeLevel level
    content := content
    source := "Linux"
    hostname := getValue2 row headers "hostname" "host"
    pid := getValue2 row headers "pid" "processid" }

/-- `parseApacheLog` of `src/utils/logParsers.ts`; the level is derived from
the HTTP status code, with `parseIntJS` for JS `parseInt` (a `NaN` compares
false against both bounds). -/
def parseApacheLog (row : Row) (headers : List String) : LogEntry :=
  let status := getValue2 row headers "status" "code"
  let request := getValue2 row headers "request" "uri"
  let level :=
    match parseIntJS status with
    | some n => if n ≥ 500 then "Error" else if n ≥ 400 then "Warning" else "Info"
    | none => "Info"
  { timestamp := getValue2 row headers "timestamp" "time"
    component := "apache"
    level := level
    content := getValue2 row headers "method" "" ++ " " ++ request ++ " - "
      ++ status ++ " - " ++ getValue2 row headers "referer" ""
    source := "Apache"
    hostname := getValue2 row headers "remotehost" "host" }

/-- `parseHadoopLog` of `src/utils/logParsers.ts`. -/
def parseHadoopLog (row : Row) (headers : List String) : LogEntry :=
  { timestamp := getValue2 row headers "logtime" "timestamp"
    component := jsOr (getValue2 row headers "logger" "component") "hadoop"
    level := normalizeLevel (getValue2 row headers "level" "priority")
    content := jsOr (getValue2 row headers "message" "msg")
      (getValue2 row headers "content" "")
    source := "Hadoop" }

/-- `parseSparkLog` of `src/utils/logParsers.ts`. -/
def parseSparkLog (row : Row) (headers : List String) : LogEntry :=
  { timestamp := getValue2 row headers "timestamp" "time"
    component := jsOr (getValue2 row headers "logger" "component") "spark"
    level := normalizeLevel (getValue2 row headers "level" "priority")
    content := jsOr (getValue2 row headers "message" "msg")
      (getValue2 row headers "content" "")
    source := "Spark" }

/-- `parseOpenSSHLog` of `src/utils/logParsers.ts`; the level is inferred by
keyword search in the content. -/
def parseOpenSSHLog (row : Row) (headers : List String) : LogEntry :=
  let content := jsOr (getValue2 row headers "message" "msg")
    (getValue2 row headers "content" "")
  let level :=
    if containsSubstr (toLowerStr content) "error"
        || containsSubstr (toLowerStr content) "failed" then "Error"
    else if containsSubstr (toLowerStr content) "warning" then "Warning"
    else "Info"
  { timestamp := getValue2 row headers "timestamp" "date"
    component := "sshd"
    level := level
    content := content
    source := "OpenSSH"
    hostname := getValue2 row headers "hostname" "host" }

/-- `parseLogRow` of `src/utils/logParsers.ts`: dispatch on the format; the
`auto`/default branch re-runs detection on the single row (detection returns
one of the six concrete formats or `auto`) and falls back to the Linux
syslog parser. -/
def parseLogRow (row : Row) (headers : List String) (format : LogFormat) : LogEntry :=
  match format with
  | LogFormat.windows => parseWindowsLog row headers
  | LogFormat.linuxSyslog => parseLinuxSyslog row headers
  | LogFormat.apache => parseApacheLog row headers
  | LogFormat.hadoop => parseHadoopLog row headers
  | LogFormat.spark => parseSparkLog row headers
  | LogFormat.openssh => parseOpenSSHLog row headers
  | _ =>
    match detectLogFormat headers [row] with
    | LogFormat.windows => parseWindowsLog row headers
    | LogFormat.linuxSyslog => parseLinuxSyslog row headers
    | LogFormat.apache => parseApacheLog row headers
    | LogFormat.hadoop => parseHadoopLog row headers
    | LogFormat.spark => parseSparkLog row headers
    | LogFormat.openssh => parseOpenSSHLog row headers
    | _ => parseLinuxSyslog row headers

/-- `convertWindowsLog` of `src/utils/logParsers.ts`. -/
def convertWindowsLog (windowsLog : WindowsLog) : LogEntry :=
  { timestamp := windowsLog.Time
    component := windowsLog.Component
    level := windowsLog.Level
    content := windowsLog.Content
    source := "Windows" }

/-- The `complete`-callback body of `parseCSV` in `src/utils/csvParser.ts`,
over the parsed header list and data rows: reject an empty data set, detect
the format once from the headers and the first 5 rows, parse each row (the
row parsers are total here, so the per-row `catch` branch is not taken), and
drop records with empty or whitespace-only content. -/
def parseCSVData (headers : List String) (data : List Row)
    (format : LogFormat) : Except String (List LogEntry) :=
  if data.isEmpty then
    Except.error "CSV file is empty or has no valid data"
  else
    let detectedFormat :=
      if format == LogFormat.auto then detectLogFormat headers (data.take 5)
      else format
    Except.ok ((data.map (fun row => parseLogRow row headers detectedFormat)).filter
      (fun log => log.content != "" && trimStr log.content != ""))

/-- Two concrete records sharing component and level but not content. -/
def demoError1 : LogEntry := ⟨"t1", "DnsApi", "Error", "boom", "", "", ""⟩

/-- Second demo record; same fingerprint as `demoError1`. -/
def demoError2 : LogEntry := ⟨"t2", "DnsApi", "Error", "zap", "", "", ""⟩

/-- A record whose component contains a dash. -/
def demoDash1 : LogEntry := ⟨"t1", "a-b", "c", "m1", "", "", ""⟩

/-- A record with different component and level but the same fingerprint
string as `demoDash1`. -/
def demoDash2 : LogEntry := ⟨"t2", "a", "b-c", "m2", "", "", ""⟩

/-- The key column of the clusters association list. -/
def clusterKeys (acc : List (String × Cluster)) : List String :=
  acc.map (fun kv => kv.1)

/-- Property access `clusters[key]` on the clusters object. -/
def lookupCluster (acc : List (String × Cluster)) (key : String) : Option Cluster :=
  Option.map (fun kv => kv.2) (acc.find? (fun kv => kv.1 == key))

/-- The number of input records carrying a given fingerprint. -/
def countFp (logs : List LogEntry) (key : String) : Nat :=
  logs.countP (fun x => fingerprint x == key)

/-- The result shape of `calculateStats`. -/
structure Stats where
  totalLogs : Nat
  uniquePatterns : Nat
  errorCount : Nat
  warningCount : Nat
deriving DecidableEq, Repr

/-- `calculateStats` of `src/utils/logProcessor.ts` on unified entries: the
`Set` of fingerprints is modelled by `dedup`, whose length is the number of
distinct fingerprints. -/
def calculateStats (logs : List LogEntry) : Stats :=
  { totalLogs := logs.length
    uniquePatterns := ((logs.map fingerprint).dedup).length
    errorCount := (logs.filter (fun log => toLowerStr log.level == "error")).length
    warningCount := (logs.filter (fun log => toLowerStr log.level == "warning")).length }

/-! ### Helper lemmas about the clustering fold -/

lemma updAt_fst (key : String) (kv : String × Cluster) : (updAt key kv).1 = kv.1 := by
  by_cases h : kv.1 = key <;> simp [updAt, h]

lemma find?_map_updAt (key target : String) (acc : List (String × Cluster)) :
    (acc.map (updAt key)).find? (fun kv => kv.1 == target)
      = Option.map (updAt key) (acc.find? (fun kv => kv.1 == target)) := by
  have hp : ((fun kv : String × Cluster => kv.1 == target) ∘ updAt key)
      = (fun kv : String × Cluster => kv.1 == target) := by
    funext kv
    simp [Function.comp, updAt_fst]
  rw [List.find?_map, hp]

lemma clusterKeys_map_updAt (key : String) (acc : List (String × Cluster)) :
    clusterKeys (acc.map (updAt key)) = clusterKeys acc := by
  simp only [clusterKeys, List.map_map]
  refine List.map_congr_left ?_
  intro kv _
  simp [Function.comp, updAt_fst]

lemma find?_key_isSome_iff (acc : List (String × Cluster)) (key : String) :
    (acc.find? (fun kv => kv.1 == key)).isSome ↔ key ∈ clusterKeys acc := by
  rw [List.find?_isSome]
  constructor
  · rintro ⟨kv, hkv, hp⟩
    exact List.mem_map.mpr ⟨kv, hkv, by simpa using hp⟩
  · intro h
    obtain ⟨kv, hkv, heq⟩ := List.mem_map.mp h
    exact ⟨kv, hkv, by simp [heq]⟩

lemma insertLog_eq_pos (acc : List (String × Cluster)) (log : LogEntry)
    (hs : (acc.find? (fun kv => kv.1 == fingerprint log)).isSome) :
    insertLog acc log = acc.map (updAt (fingerprint log)) := by
  simp only [insertLog]
  rw [if_pos hs]

lemma insertLog_eq_neg (acc : List (String × Cluster)) (log : LogEntry)
    (hs : ¬ (acc.find? (fun kv => kv.1 == fingerprint log)).isSome = true) :
    insertLog acc log =
      (acc ++ [(fingerprint log,
        ({ component := log.component, level := log.level, count := 0,
           sample := log.content, fingerprint := fingerprint log } : Cluster))]).map
        (updAt (fingerprint log)) := by
  simp only [insertLog]
  rw [if_neg hs]

lemma clusterKeys_insertLog (acc : List (String × Cluster)) (log : LogEntry) :
    clusterKeys (insertLog acc log) =
      if fingerprint log ∈ clusterKeys acc then clusterKeys acc
      else clusterKeys acc ++ [fingerprint log] := by
  by_cases hmem : fingerprint log ∈ clusterKeys acc
  · have hs : (acc.find? (fun kv => kv.1 == fingerprint log)).isSome :=
      (find?_key_isSome_iff acc (fingerprint log)).mpr hmem
    rw [insertLog_eq_pos acc log hs, clusterKeys_map_updAt, if_pos hmem]
  · have hs : ¬ (acc.find? (fun kv => kv.1 == fingerprint log)).isSome = true := by
      rw [find?_key_isSome_iff]; exact hmem
    rw [insertLog_eq_neg acc log hs, clusterKeys_map_updAt, if_neg hmem]
    simp [clusterKeys]

lemma lookupCluster_eq_none_of (acc : List (String × Cluster)) (key : String)
    (hs : ¬ (acc.find? (fun kv => kv.1 == key)).isSome = true) :
    lookupCluster acc key = none := by
  unfold lookupCluster
  cases h : acc.find? (fun kv => kv.1 == key) with
  | none => rfl
  | some kv => rw [h] at hs; simp at hs

lemma lookupCluster_map_updAt (key target : String) (acc : List (String × Cluster)) :
    lookupCluster (acc.map (updAt key)) target =
      Option.map (fun c => if target = key then { c with count := c.count + 1 } else c)
        (lookupCluster acc target) := by
  unfold lookupCluster
  rw [find?_map_updAt]
  cases hfind : acc.find? (fun kv => kv.1 == target) with
  | none => rfl
  | some kv =>
    have hkv : kv.1 = target := by simpa using List.find?_some hfind
    by_cases ht : target = key
    · subst ht
      simp [updAt, hkv]
    · have hne : ¬ kv.1 = key := by rw [hkv]; exact ht
      simp [updAt, hne, ht]

lemma lookupCluster_append_single (acc : List (String × Cluster))
    (key target : String) (c : Cluster) :
    lookupCluster (acc ++ [(key, c)]) target =
      (lookupCluster acc target).or (if target = key then some c else none) := by
  unfold lookupCluster
  rw [List.find?_append]
  cases hfind : acc.find? (fun kv => kv.1 == target) with
  | none =>
    by_cases ht : target = key
    · subst ht
      simp [List.find?]
    · have hne : (key == target) = false := by
        simp
        exact fun h => ht h.symm
      simp [List.find?, hne, ht]
  | some kv => simp

lemma lookupCluster_insertLog (acc : List (String × Cluster)) (log : LogEntry)
    (key : String) :
    lookupCluster (insertLog acc log) key =
      if key = fingerprint log then
        match lookupCluster acc key with
        | some c => some { c with count := c.count + 1 }
        | none => some { component := log.component, level := log.level, count := 1,
                         sample := log.content, fingerprint := key }
      else lookupCluster acc key := by
  by_cases hs : (acc.find? (fun kv => kv.1 == fingerprint log)).isSome = true
  · rw [insertLog_eq_pos acc log hs, lookupCluster_map_updAt]
    by_cases hk : key = fingerprint log
    · rw [if_pos hk]
      subst hk
      cases hlook : lookupCluster acc (fingerprint log) with
      | none =>
        exfalso
        unfold lookupCluster at hlook
        cases h2 : acc.find? (fun kv => kv.1 == fingerprint log) with
        | none => rw [h2] at hs; simp at hs
        | some kv => rw [h2] at hlook; simp at hlook
      | some c => simp
    · rw [if_neg hk]
      cases hlook : lookupCluster acc key with
      | none => simp
      | some c => simp [hk]
  · have hlooknone : lookupCluster acc (fingerprint log) = none :=
      lookupCluster_eq_none_of acc (fingerprint log) hs
    rw [insertLog_eq_neg acc log hs, lookupCluster_map_updAt, lookupCluster_append_single]
    by_cases hk : key = fingerprint log
    · rw [if_pos hk]
      subst hk
      rw [hlooknone]
      simp
    · rw [if_neg hk, if_neg hk]
      cases hlook : lookupCluster acc key with
      | none => simp
      | some c => simp [hk]

lemma lookupCluster_foldl (logs : List LogEntry) (acc : List (String × Cluster))
    (key : String) :
    lookupCluster (logs.foldl insertLog acc) key =
      match lookupCluster acc key with
      | some c => some { c with count := c.count + countFp logs key }
      | none =>
        match logs.find? (fun x => fingerprint x == key) with
        | some f => some { component := f.component, level := f.level,
                           count := countFp logs key, sample := f.content,
                           fingerprint := key }
        | none => none := by
  induction logs generalizing acc with
  | nil =>
    cases h : lookupCluster acc key with
    | none => simpa [countFp] using h
    | some c => simpa [countFp] using h
  | cons x xs ih =>
    rw [List.foldl_cons, ih (insertLog acc x), lookupCluster_insertLog]
    by_cases hx : key = fingerprint x
    · rw [if_pos hx]
      have hpred : (fingerprint x == key) = true := by simp [hx]
      have hcount : countFp (x :: xs) key = countFp xs key + 1 := by
        simp [countFp, List.countP_cons, hpred]
      cases h : lookupCluster acc key with
      | some c =>
        have harith : c.count + 1 + countFp xs key = c.count + (countFp xs key + 1) := by
          omega
        simp [h, hcount, harith]
      | none =>
        have hfind : List.find? (fun y => fingerprint y == key) (x :: xs) = some x := by
          simp [List.find?_cons, hpred]
        have harith : 1 + countFp xs key = countFp xs key + 1 := by omega
        simp [h, hcount, hfind, harith]
    · rw [if_neg hx]
      have hpred : (fingerprint x == key) = false := by
        simp
        exact fun h => hx h.symm
      have hcount : countFp (x :: xs) key = countFp xs key := by
        simp [countFp, List.countP_cons, hpred]
      have hfind : List.find? (fun y => fingerprint y == key) (x :: xs)
          = List.find? (fun y => fingerprint y == key) xs := by
        simp [List.find?_cons, hpred]
      cases h : lookupCluster acc key with
      | some c => simp [h, hcount]
      | none => simp [h, hcount, hfind]

lemma lookupCluster_buildClusters (logs : List LogEntry) (key : String) :
    lookupCluster (buildClusters logs) key =
      match logs.find? (fun x => fingerprint x == key) with
      | some f => some { component := f.component, level := f.level,
                         count := countFp logs key, sample := f.content,
                         fingerprint := key }
      | none => none := by
  rw [buildClusters, lookupCluster_foldl]
  rfl

lemma clusterKeys_foldl_nodup (logs : List LogEntry) (acc : List (String × Cluster))
    (h : (clusterKeys acc).Nodup) : (clusterKeys (logs.foldl insertLog acc)).Nodup := by
  induction logs generalizing acc with
  | nil => exact h
  | cons x xs ih =>
    rw [List.foldl_cons]
    apply ih
    rw [clusterKeys_insertLog]
    by_cases hm : fingerprint x ∈ clusterKeys acc
    · rw [if_pos hm]; exact h
    · rw [if_neg hm]
      refine List.Nodup.append h (List.nodup_singleton _) ?_
      intro a ha hb
      rw [List.mem_singleton] at hb
      subst hb
      exact hm ha

lemma mem_clusterKeys_foldl (logs : List LogEntry) (acc : List (String × Cluster))
    (key : String) :
    key ∈ clusterKeys (logs.foldl insertLog acc) ↔
      key ∈ clusterKeys acc ∨ key ∈ logs.map fingerprint := by
  induction logs generalizing acc with
  | nil => simp
  | cons x xs ih =>
    rw [List.foldl_cons, ih, clusterKeys_insertLog]
    by_cases hm : fingerprint x ∈ clusterKeys acc
    · rw [if_pos hm]
      simp only [List.map_cons, List.mem_cons]
      constructor
      · rintro (h | h)
        · exact Or.inl h
        · exact Or.inr (Or.inr h)
      · rintro (h | h | h)
        · exact Or.inl h
        · rw [h]; exact Or.inl hm
        · exact Or.inr h
    · rw [if_neg hm]
      simp only [List.map_cons, List.mem_cons, List.mem_append, List.mem_singleton]
      tauto

lemma fingerprint_eq_key_foldl (logs : List LogEntry) (acc : List (String × Cluster))
    (h : ∀ kv ∈ acc, Cluster.fingerprint kv.2 = kv.1) :
    ∀ kv ∈ logs.foldl insertLog acc, Cluster.fingerprint kv.2 = kv.1 := by
  induction logs generalizing acc with
  | nil => exact h
  | cons x xs ih =>
    rw [List.foldl_cons]
    apply ih
    intro kv hkv
    by_cases hs : (acc.find? (fun kv => kv.1 == fingerprint x)).isSome = true
    · rw [insertLog_eq_pos acc x hs] at hkv
      obtain ⟨kv0, hkv0, rfl⟩ := List.mem_map.mp hkv
      have h0 := h kv0 hkv0
      by_cases hq : kv0.1 = fingerprint x <;> simp [updAt, hq, h0]
    · rw [insertLog_eq_neg acc x hs] at hkv
      obtain ⟨kv0, hkv0, rfl⟩ := List.mem_map.mp hkv
      rcases List.mem_append.mp hkv0 with h0 | h0
      · have h1 := h kv0 h0
        by_cases hq : kv0.1 = fingerprint x <;> simp [updAt, hq, h1]
      · rw [List.mem_singleton] at h0
        subst h0
        simp [updAt]

lemma clusterKeys_buildClusters_nodup (logs : List LogEntry) :
    (clusterKeys (buildClusters logs)).Nodup :=
  clusterKeys_foldl_nodup logs [] (by simp [clusterKeys])

lemma mem_clusterKeys_buildClusters (logs : List LogEntry) (key : String) :
    key ∈ clusterKeys (buildClusters logs) ↔ key ∈ logs.map fingerprint := by
  rw [buildClusters, mem_clusterKeys_foldl]
  simp [clusterKeys]

lemma length_buildClusters (logs : List LogEntry) :
    (buildClusters logs).length = ((logs.map fingerprint).dedup).length := by
  have h1 : (clusterKeys (buildClusters logs)).Nodup := clusterKeys_buildClusters_nodup logs
  have h2 : ((logs.map fingerprint).dedup).Nodup := List.nodup_dedup _
  have hp : List.Perm (clusterKeys (buildClusters logs)) ((logs.map fingerprint).dedup) :=
    (List.perm_ext_iff_of_nodup h1 h2).mpr (fun a => by
      rw [mem_clusterKeys_buildClusters, List.mem_dedup])
  have hl := hp.length_eq
  simpa [clusterKeys] using hl

lemma clusterLE_iff (a b : Cluster) :
    clusterLE a b = true ↔
      b.count < a.count ∨
        (a.count = b.count ∧ levelPriority b.level ≤ levelPriority a.level) := by
  unfold clusterLE
  by_cases h : a.count = b.count
  · simp [h]
  · simp [h]

lemma clusterLE_trans : ∀ (a b c : Cluster),
    clusterLE a b = true → clusterLE b c = true → clusterLE a c = true := by
  intro a b c hab hbc
  rw [clusterLE_iff] at hab hbc ⊢
  rcases hab with h | ⟨h1, h2⟩ <;> rcases hbc with h' | ⟨h1', h2'⟩
  · exact Or.inl (by omega)
  · exact Or.inl (by omega)
  · exact Or.inl (by omega)
  · exact Or.inr ⟨by omega, le_trans h2' h2⟩

lemma clusterLE_total : ∀ (a b : Cluster), clusterLE a b || clusterLE b a := by
  intro a b
  rw [Bool.or_eq_true, clusterLE_iff, clusterLE_iff]
  omega

instance : IsTrans Cluster ClusterOrd := ⟨clusterLE_trans⟩

instance : IsTotal Cluster ClusterOrd := ⟨fun a b => by
  have h := clusterLE_total a b
  rcases Bool.or_eq_true _ _ |>.mp h with h1 | h1
  · exact Or.inl h1
  · exact Or.inr h1⟩

lemma processLogs_length (logs : List LogEntry) :
    (processLogs logs).length = min 100 ((logs.map fingerprint).dedup).length := by
  unfold processLogs
  rw [List.length_map, List.length_take]
  have hlen : (List.insertionSort ClusterOrd ((buildClusters logs).map (fun kv => kv.2))).length
      = (buildClusters logs).length := by
    rw [(List.perm_insertionSort _ _).length_eq, List.length_map]
  rw [hlen, length_buildClusters]

lemma values_fingerprint_eq_keys (logs : List LogEntry) :
    ((buildClusters logs).map (fun kv => kv.2)).map (fun c => Cluster.fingerprint c)
      = clusterKeys (buildClusters logs) := by
  rw [List.map_map]
  refine List.map_congr_left ?_
  intro kv hkv
  exact fingerprint_eq_key_foldl logs [] (by simp) kv hkv

lemma processLogs_fingerprints_nodup (logs : List LogEntry) :
    ((processLogs logs).map (fun d => d.fingerprint)).Nodup := by
  have hvals : (((buildClusters logs).map (fun kv => kv.2)).map
      (fun c => Cluster.fingerprint c)).Nodup := by
    rw [values_fingerprint_eq_keys]
    exact clusterKeys_buildClusters_nodup logs
  have hperm : List.Perm
      ((List.insertionSort ClusterOrd ((buildClusters logs).map (fun kv => kv.2))).map
        (fun c => Cluster.fingerprint c))
      (((buildClusters logs).map (fun kv => kv.2)).map (fun c => Cluster.fingerprint c)) :=
    (List.perm_insertionSort _ _).map _
  have hsorted : ((List.insertionSort ClusterOrd ((buildClusters logs).map (fun kv => kv.2))).map
      (fun c => Cluster.fingerprint c)).Nodup := hperm.symm.nodup hvals
  unfold processLogs
  rw [List.map_map]
  show ((((List.insertionSort ClusterOrd ((buildClusters logs).map (fun kv => kv.2)))).take 100).map
    (fun p => Cluster.fingerprint p)).Nodup
  rw [List.map_take]
  exact hsorted.sublist (List.take_sublist 100 _)

lemma processLogs_pairwise (logs : List LogEntry) :
    (processLogs logs).Pairwise (fun a b =>
      b.frequency < a.frequency ∨
        (a.frequency = b.frequency ∧ levelPriority b.level ≤ levelPriority a.level)) := by
  have hsort : (List.insertionSort ClusterOrd
      ((buildClusters logs).map (fun kv => kv.2))).Pairwise ClusterOrd := by
    exact List.sorted_insertionSort ClusterOrd ((buildClusters logs).map (fun kv => kv.2))
  have htake := hsort.sublist (List.take_sublist 100 _)
  unfold processLogs
  rw [List.pairwise_map]
  refine htake.imp ?_
  intro a b hab
  simpa using (clusterLE_iff a b).mp hab

/-! ### Helper lemmas about the parsers -/

lemma jsOr_ne_empty (a b : String) (hb : b ≠ "") : jsOr a b ≠ "" := by
  unfold jsOr
  by_cases h : a = ""
  · simp [h]
    exact hb
  · simp [h]

lemma normalizeLevel_ne_empty (level : String) : normalizeLevel level ≠ "" := by
  simp only [normalizeLevel]
  repeat' split
  all_goals first
    | decide
    | exact jsOr_ne_empty level "Info" (by decide)

lemma rowLookup_eq_empty (row : Row) (k : String)
    (h : ∀ kv ∈ row, kv.1 ≠ k) : rowLookup row k = "" := by
  unfold rowLookup
  have hnone : List.find? (fun kv => kv.1 == k) row = none := by
    rw [List.find?_eq_none]
    intro kv hkv
    simpa using h kv hkv
  rw [hnone]

lemma rowLookup_foobar (row : Row)
    (hrow : ∀ kv ∈ row, kv.1 = "foo" ∨ kv.1 = "bar")
    (k : String) (hk1 : k ≠ "foo") (hk2 : k ≠ "bar") : rowLookup row k = "" := by
  refine rowLookup_eq_empty row k ?_
  intro kv hkv
  rcases hrow kv hkv with h | h <;> rw [h]
  · exact fun hh => hk1 hh.symm
  · exact fun hh => hk2 hh.symm

lemma getValue2_foobar (row : Row)
    (hrow : ∀ kv ∈ row, kv.1 = "foo" ∨ kv.1 = "bar") (key alt : String)
    (hfind : (["foo", "bar"].find?
      (fun h => toLowerStr h == toLowerStr key || toLowerStr h == toLowerStr alt)) = none)
    (hk1 : key ≠ "foo") (hk2 : key ≠ "bar") :
    getValue2 row ["foo", "bar"] key alt = "" := by
  unfold getValue2
  rw [hfind]
  show rowLookup row (jsOr (Option.getD none "") key) = ""
  have hj : jsOr (Option.getD none "") key = key := by
    simp [jsOr]
  rw [hj]
  exact rowLookup_foobar row hrow key hk1 hk2

lemma parseLinuxSyslog_foobar_content (row : Row)
    (hrow : ∀ kv ∈ row, kv.1 = "foo" ∨ kv.1 = "bar") :
    (parseLinuxSyslog row ["foo", "bar"]).content = "" := by
  show jsOr (getValue2 row ["foo", "bar"] "message" "msg")
      (getValue2 row ["foo", "bar"] "content" "") = ""
  rw [getValue2_foobar row hrow "message" "msg" (by decide) (by decide) (by decide),
      getValue2_foobar row hrow "content" "" (by decide) (by decide) (by decide)]
  decide

lemma parseOpenSSHLog_foobar_content (row : Row)
    (hrow : ∀ kv ∈ row, kv.1 = "foo" ∨ kv.1 = "bar") :
    (parseOpenSSHLog row ["foo", "bar"]).content = "" := by
  show jsOr (getValue2 row ["foo", "bar"] "message" "msg")
      (getValue2 row ["foo", "bar"] "content" "") = ""
  rw [getValue2_foobar row hrow "message" "msg" (by decide) (by decide) (by decide),
      getValue2_foobar row hrow "content" "" (by decide) (by decide) (by decide)]
  decide

lemma detectLogFormat_foobar (sampleRows : List Row) :
    detectLogFormat ["foo", "bar"] sampleRows = LogFormat.openssh ∨
      detectLogFormat ["foo", "bar"] sampleRows = LogFormat.auto := by
  simp only [detectLogFormat]
  rw [if_neg (by decide), if_neg (by decide), if_neg (by decide), if_neg (by decide),
      if_neg (by decide)]
  split
  · exact Or.inl rfl
  · exact Or.inr rfl

lemma parseLogRow_foobar_content (row : Row)
    (hrow : ∀ kv ∈ row, kv.1 = "foo" ∨ kv.1 = "bar") (fmt : LogFormat)
    (hfmt : fmt = LogFormat.openssh ∨ fmt = LogFormat.auto) :
    (parseLogRow row ["foo", "bar"] fmt).content = "" := by
  rcases hfmt with h | h <;> subst h
  · exact parseOpenSSHLog_foobar_content row hrow
  · show (match detectLogFormat ["foo", "bar"] [row] with
      | LogFormat.windows => parseWindowsLog row ["foo", "bar"]
      | LogFormat.linuxSyslog => parseLinuxSyslog row ["foo", "bar"]
      | LogFormat.apache => parseApacheLog row ["foo", "bar"]
      | LogFormat.hadoop => parseHadoopLog row ["foo", "bar"]
      | LogFormat.spark => parseSparkLog row ["foo", "bar"]
      | LogFormat.openssh => parseOpenSSHLog row ["foo", "bar"]
      | _ => parseLinuxSyslog row ["foo", "bar"]).content = ""
    rcases detectLogFormat_foobar [row] with hd | hd <;> rw [hd]
    · exact parseOpenSSHLog_foobar_content row hrow
    · exact parseLinuxSyslog_foobar_content row hrow

/-! ### Claim theorems -/

/-- C1: for every list of unified log records, the digest returned by
`processLogs` contains at most one entry per distinct fingerprint (its
fingerprint column has no duplicates), its length equals
`min 100 (number of distinct fingerprints in the input)`, and it never
exceeds 100 entries. -/
theorem digest_length_min_distinct (logs : List LogEntry) :
    ((processLogs logs).map (fun d => d.fingerprint)).Nodup ∧
      (processLogs logs).length = min 100 ((logs.map fingerprint).dedup).length ∧
      (processLogs logs).length ≤ 100 :=
  ⟨processLogs_fingerprints_nodup logs, processLogs_length logs, by
    rw [processLogs_length logs]
    exact Nat.min_le_left _ _⟩

/-- C2: in the sequence returned by `processLogs`, every adjacent pair
`(a, b)` satisfies `a.frequency > b.frequency`, or `a.frequency =
b.frequency` and `levelPriority a.level ≥ levelPriority b.level`, where
`levelPriority` maps Error to 3, Warning to 2, Info to 1 and anything else
to 0. -/
theorem digest_sorted_adjacent (logs : List LogEntry) :
    (processLogs logs).Chain' (fun a b =>
      a.frequency > b.frequency ∨
        (a.frequency = b.frequency ∧ levelPriority a.level ≥ levelPriority b.level)) :=
  List.Pairwise.chain' (processLogs_pairwise logs)

/-- C5: `calculateStats` returns `totalLogs` equal to the input length,
`uniquePatterns` equal to the uncapped number of distinct fingerprints (so
the digest length is `min 100 uniquePatterns`, which makes `uniquePatterns`
at least the digest length, with equality whenever the distinct count is at
most 100), and error/warning counts by case-insensitive comparison of the
level with "error" resp. "warning". -/
theorem calculateStats_spec (logs : List LogEntry) :
    (calculateStats logs).totalLogs = logs.length ∧
    (calculateStats logs).uniquePatterns = ((logs.map fingerprint).dedup).length ∧
    (processLogs logs).length = min 100 (calculateStats logs).uniquePatterns ∧
    (processLogs logs).length ≤ (calculateStats logs).uniquePatterns ∧
    (calculateStats logs).errorCount
      = logs.countP (fun log => toLowerStr log.level == "error") ∧
    (calculateStats logs).warningCount
      = logs.countP (fun log => toLowerStr log.level == "warning") := by
  refine ⟨rfl, rfl, ?_, ?_, ?_, ?_⟩
  · rw [processLogs_length]
    rfl
  · rw [processLogs_length]
    exact Nat.min_le_right _ _
  · exact (List.countP_eq_length_filter _ _).symm
  · exact (List.countP_eq_length_filter _ _).symm

/-- C8: on a CSV with a header row and zero data rows, ingestion fails with
the descriptive "empty file" error and produces no record sequence. -/
theorem parseCSVData_empty_error (headers : List String) (format : LogFormat) :
    parseCSVData headers [] format
      = Except.error "CSV file is empty or has no valid data" := rfl

/-- C10: the fingerprint string is not injective in (component, level):
`demoDash1` and `demoDash2` differ in both fields yet share the fingerprint
"a-b-c"; `processLogs` merges them into a single digest entry carrying the
first-seen component and level with frequency 2, and `calculateStats`
counts one unique pattern. -/
theorem fingerprint_not_injective :
    demoDash1.component ≠ demoDash2.component ∧
    demoDash1.level ≠ demoDash2.level ∧
    fingerprint demoDash1 = fingerprint demoDash2 ∧
    processLogs [demoDash1, demoDash2] =
      [{ component := "a-b", level := "c", frequency := 2, sampleContent := "m1",
         fingerprint := "a-b-c" }] ∧
    (calculateStats [demoDash1, demoDash2]).uniquePatterns = 1 := by decide

/-- C3 counterexample: on the empty string, `normalizeLevel` returns
"Info", not the original input unchanged as the claim states for
non-matching inputs. -/
theorem normalizeLevel_empty_counterexample :
    normalizeLevel "" = "Info" ∧ normalizeLevel "" ≠ "" := by decide

/-- C3 (amended): `normalizeLevel` is a pure total function behaving exactly
as the specification describes — textual pattern groups in fixed priority
order, then numeric syslog codes — except that an unmatched empty string
maps to "Info" rather than being returned unchanged; every other unmatched
input is returned unchanged. -/
theorem normalizeLevel_matches_spec (level : String) :
    normalizeLevel level = normalizeLevelSpec level := by
  simp only [normalizeLevel, normalizeLevelSpec, jsOr, Bool.or_eq_true, beq_iff_eq]
  split_ifs <;> simp_all

/-- C4: two records with the same component and level always share a
fingerprint and land in the single cluster at that key; that cluster counts
every record carrying the fingerprint, and its component, level and sample
content come from the first such record in input order. -/
theorem cluster_fingerprint_merge (logs : List LogEntry) (r s : LogEntry)
    (hr : r ∈ logs) (hs : s ∈ logs)
    (hc : s.component = r.component) (hl : s.level = r.level) :
    fingerprint s = fingerprint r ∧
    ∃ c, lookupCluster (buildClusters logs) (fingerprint r) = some c ∧
      c.count = countFp logs (fingerprint r) ∧
      ∃ f, logs.find? (fun x => fingerprint x == fingerprint r) = some f ∧
        c.component = f.component ∧ c.level = f.level ∧ c.sample = f.content := by
  have hfp : fingerprint s = fingerprint r := by
    unfold fingerprint
    rw [hc, hl]
  refine ⟨hfp, ?_⟩
  rw [lookupCluster_buildClusters]
  have hfind : (logs.find? (fun x => fingerprint x == fingerprint r)).isSome := by
    rw [List.find?_isSome]
    exact ⟨r, hr, by simp⟩
  cases hf : logs.find? (fun x => fingerprint x == fingerprint r) with
  | none => rw [hf] at hfind; simp at hfind
  | some f => exact ⟨_, rfl, rfl, f, rfl, rfl, rfl, rfl⟩

/-- C4 witness: the theorem applied to two concrete records sharing
component "DnsApi" and level "Error" with different contents. -/
theorem cluster_fingerprint_merge_witness :
    demoError1 ∈ [demoError1, demoError2] ∧
    demoError2 ∈ [demoError1, demoError2] ∧
    demoError2.component = demoError1.component ∧
    demoError2.level = demoError1.level ∧
    (fingerprint demoError2 = fingerprint demoError1 ∧
      ∃ c, lookupCluster (buildClusters [demoError1, demoError2])
          (fingerprint demoError1) = some c ∧
        c.count = countFp [demoError1, demoError2] (fingerprint demoError1) ∧
        ∃ f, [demoError1, demoError2].find?
            (fun x => fingerprint x == fingerprint demoError1) = some f ∧
          c.component = f.component ∧ c.level = f.level ∧ c.sample = f.content) :=
  ⟨by decide, by decide, by decide, by decide,
    cluster_fingerprint_merge [demoError1, demoError2] demoError1 demoError2
      (by decide) (by decide) (by decide) (by decide)⟩

/-- C6 counterexample: the Windows row parser supplies no fallback — on a
row with no columns it produces an empty component and an empty level,
contradicting the claimed invariant for every per-format parser. -/
theorem parseWindowsLog_empty_fields :
    (parseWindowsLog [] []).component = "" ∧ (parseWindowsLog [] []).level = "" := by
  decide

/-- C6 (amended): every per-format row parser except the Windows one yields
a non-empty component and a non-empty level on every row; in particular the
Linux syslog parser supplies the fallbacks "unknown" and "Info" when the
fields are absent. The Windows parser maps a missing field to the empty
string. -/
theorem rowParsers_nonempty_fields (row : Row) (headers : List String) :
    (parseLinuxSyslog row headers).component ≠ "" ∧
    (parseLinuxSyslog row headers).level ≠ "" ∧
    (parseApacheLog row headers).component ≠ "" ∧
    (parseApacheLog row headers).level ≠ "" ∧
    (parseHadoopLog row headers).component ≠ "" ∧
    (parseHadoopLog row headers).level ≠ "" ∧
    (parseSparkLog row headers).component ≠ "" ∧
    (parseSparkLog row headers).level ≠ "" ∧
    (parseOpenSSHLog row headers).component ≠ "" ∧
    (parseOpenSSHLog row headers).level ≠ "" ∧
    (parseLinuxSyslog [] []).component = "unknown" ∧
    (parseLinuxSyslog [] []).level = "Info" := by
  refine ⟨jsOr_ne_empty _ _ (by decide), normalizeLevel_ne_empty _,
    (by decide : ("apache" : String) ≠ ""), ?_,
    jsOr_ne_empty _ _ (by decide), normalizeLevel_ne_empty _,
    jsOr_ne_empty _ _ (by decide), normalizeLevel_ne_empty _,
    (by decide : ("sshd" : String) ≠ ""), ?_, by decide, by decide⟩
  · simp only [parseApacheLog]
    repeat' split
    all_goals decide
  · simp only [parseOpenSSHLog]
    repeat' split
    all_goals decide

/-- C7 counterexample: a CSV with headers foo,bar and one non-empty body
row parses without error, but the returned sequence is empty — the
generic fallback parse yields empty content, so the row is filtered out
rather than kept as a record with the serialized raw row as content. -/
theorem parseCSVData_foobar_counterexample :
    parseCSVData ["foo", "bar"] [[("foo", "alpha"), ("bar", "beta")]] LogFormat.auto
        = Except.ok [] ∧
    ([[("foo", "alpha"), ("bar", "beta")]] : List Row).length = 1 := ⟨rfl, rfl⟩

/-- C7 (amended): on a CSV with headers foo,bar (matching no recognized
format rule) and non-empty body rows, `parseCSV` does not throw: it
resolves successfully; every row falls back to a parser that finds no
message column, so each parsed record has empty content and is filtered
out, and the resulting record list is empty. The serialized-raw-row
fallback record only arises when a row parser throws, which these total
parsers never do. -/
theorem parseCSVData_unknown_headers (rows : List Row) (hne : rows ≠ [])
    (hkeys : ∀ row ∈ rows, ∀ kv ∈ row, kv.1 = "foo" ∨ kv.1 = "bar") :
    parseCSVData ["foo", "bar"] rows LogFormat.auto = Except.ok [] := by
  unfold parseCSVData
  have hempty : ¬ rows.isEmpty = true := by
    simpa [List.isEmpty_iff] using hne
  rw [if_neg hempty]
  show Except.ok ((rows.map (fun row => parseLogRow row ["foo", "bar"]
      (detectLogFormat ["foo", "bar"] (rows.take 5)))).filter
      (fun log => log.content != "" && trimStr log.content != ""))
    = Except.ok ([] : List LogEntry)
  congr 1
  rw [List.filter_eq_nil_iff]
  intro log hlog
  obtain ⟨row, hrow, rfl⟩ := List.mem_map.mp hlog
  have hcontent : (parseLogRow row ["foo", "bar"]
      (detectLogFormat ["foo", "bar"] (rows.take 5))).content = "" :=
    parseLogRow_foobar_content row (hkeys row hrow) _ (detectLogFormat_foobar (rows.take 5))
  simp [hcontent]

/-- C7 witness: the amended theorem applied to a single concrete row. -/
theorem parseCSVData_unknown_headers_witness :
    ([[("foo", "alpha")]] : List Row) ≠ [] ∧
    parseCSVData ["foo", "bar"] [[("foo", "alpha")]] LogFormat.auto = Except.ok [] :=
  ⟨by decide, parseCSVData_unknown_headers [[("foo", "alpha")]] (by decide) (by decide)⟩

/-- C9: `detectLogFormat` case-folds the headers and tests the format rules
in fixed priority order with the first match deciding; any header set
containing lineid, component and level is classified as Windows, even when
later rules (Apache, Spark, ...) would also match. -/
theorem detectLogFormat_windows_first (headers : List String) (sampleRows : List Row)
    (h1 : "lineid" ∈ headers.map (fun h => toLowerStr h))
    (h2 : "component" ∈ headers.map (fun h => toLowerStr h))
    (h3 : "level" ∈ headers.map (fun h => toLowerStr h)) :
    detectLogFormat headers sampleRows = LogFormat.windows := by
  simp only [detectLogFormat]
  have hc : ((headers.map (fun h => toLowerStr h)).contains "lineid"
      && (headers.map (fun h => toLowerStr h)).contains "component"
      && (headers.map (fun h => toLowerStr h)).contains "level") = true := by
    simp [h1, h2, h3]
  rw [if_pos hc]

/-- C9 witness: headers that also satisfy the Apache rule (request, status)
and the Spark rule (timestamp, logger) are still classified as Windows. -/
theorem detectLogFormat_windows_first_witness :
    ("lineid" ∈ (["LineId", "Component", "Level", "Request", "Timestamp",
        "Logger", "Status"].map (fun h => toLowerStr h))) ∧
    ("component" ∈ (["LineId", "Component", "Level", "Request", "Timestamp",
        "Logger", "Status"].map (fun h => toLowerStr h))) ∧
    ("level" ∈ (["LineId", "Component", "Level", "Request", "Timestamp",
        "Logger", "Status"].map (fun h => toLowerStr h))) ∧
    detectLogFormat ["LineId", "Component", "Level", "Request", "Timestamp",
        "Logger", "Status"] [] = LogFormat.windows :=
  ⟨by decide, by decide, by decide,
    detectLogFormat_windows_first _ [] (by decide) (by decide) (by decide)⟩
